import Mathlib

/-!
Verification of the capture → dedupe → ingestion pipeline of `my-recall`.

The development shallowly embeds the two processes of the repository:

* `RecallWatcher` (src/watcher/watcher.py): the capture sampler — pause gate,
  privacy blocklist, perceptual-hash deduplication, atomic publish by rename.
* `RecallWorker` (src/backend/worker.py): the ingestion pipeline — drain loop
  over the inbox, OCR, embedding, relational insert (with a uniqueness
  constraint on `filepath`, from src/backend/database.py), vector upsert,
  archive rename, and the duplicate-deletion error handler.

External effects (the window system, the `grim` capture tool, OCR, the
embedding engine, store failures, the clock) are supplied as explicit oracle
values in an environment record; filesystem and store contents are explicit
state.  Each function mirrors the control flow of the Python source it is
named after.
-/

/-! ### String helpers (list-based, so that the kernel can evaluate them)

These model the Python string operations used by the sources:
`str.lower`, `in` (substring test), `str.startswith`, `str.endswith`,
`" ".join`, `os.path.splitext`, and code-point lexicographic comparison
(the order used by Python's `sorted` on `str`). -/

/-- Python `str.lower` (code-point wise, as used on ASCII titles and filenames). -/
def lowerStr (s : String) : String := ⟨s.data.map Char.toLower⟩

/-- Python `needle in hay` substring test. -/
def strContainsSub (hay needle : String) : Bool :=
  (List.range (hay.data.length + 1)).any fun i => needle.data.isPrefixOf (hay.data.drop i)

/-- Python `s.startswith(p)`. -/
def strStartsWith (s p : String) : Bool := p.data.isPrefixOf s.data

/-- Python `s.endswith(p)`. -/
def strEndsWith (s p : String) : Bool := p.data.isSuffixOf s.data

/-- Code-point lexicographic `≤` on character lists: the order Python's
`sorted` uses on strings. -/
def lexLe : List Char → List Char → Bool
  | [], _ => true
  | _ :: _, [] => false
  | a :: as, b :: bs =>
    if a.toNat = b.toNat then lexLe as bs else decide (a.toNat < b.toNat)

/-- Code-point lexicographic `≤` on strings. -/
def strLe (a b : String) : Bool := lexLe a.data b.data

/-- The relation form of `strLe`, for sorting lemmas. -/
def strLeP (a b : String) : Prop := strLe a b = true

instance : DecidableRel strLeP := fun a b => instDecidableEqBool _ _

theorem lexLe_trans : ∀ a b c, lexLe a b = true → lexLe b c = true → lexLe a c = true
  | [], _, _, _, _ => rfl
  | _ :: _, [], _, h, _ => by simp [lexLe] at h
  | _ :: _, _ :: _, [], _, h => by simp [lexLe] at h
  | a :: as, b :: bs, c :: cs, h₁, h₂ => by
    simp only [lexLe] at h₁ h₂ ⊢
    by_cases hab : a.toNat = b.toNat <;> by_cases hbc : b.toNat = c.toNat
    · rw [if_pos hab] at h₁
      rw [if_pos hbc] at h₂
      rw [if_pos (hab.trans hbc)]
      exact lexLe_trans as bs cs h₁ h₂
    · rw [if_pos hab] at h₁
      rw [if_neg hbc] at h₂
      simp only [decide_eq_true_eq] at h₂
      rw [if_neg (by omega)]
      simp only [decide_eq_true_eq]
      omega
    · rw [if_neg hab] at h₁
      simp only [decide_eq_true_eq] at h₁
      rw [if_pos hbc] at h₂
      rw [if_neg (by omega)]
      simp only [decide_eq_true_eq]
      omega
    · rw [if_neg hab] at h₁
      rw [if_neg hbc] at h₂
      simp only [decide_eq_true_eq] at h₁ h₂
      rw [if_neg (by omega)]
      simp only [decide_eq_true_eq]
      omega

theorem lexLe_total : ∀ a b, lexLe a b = true ∨ lexLe b a = true
  | [], _ => Or.inl rfl
  | _ :: _, [] => Or.inr rfl
  | a :: as, b :: bs => by
    simp only [lexLe]
    by_cases hab : a.toNat = b.toNat
    · rw [if_pos hab, if_pos hab.symm]
      exact lexLe_total as bs
    · rw [if_neg hab, if_neg (Ne.symm hab)]
      simp only [decide_eq_true_eq]
      omega

instance : IsTrans String strLeP := ⟨fun a b c => lexLe_trans a.data b.data c.data⟩

instance : IsTotal String strLeP := ⟨fun a b => lexLe_total a.data b.data⟩

/-- Python `os.path.splitext(p)[0]` for a bare filename (no directory
separator): split at the last dot, unless every character before that dot is
itself a dot (so `".bashrc"` keeps its name whole). -/
def splitextBase (p : String) : String :=
  match (p.data.reverse.takeWhile (· ≠ '.')).length, p.data.length with
  | rsuf, n =>
    if h : rsuf < n then
      -- there is a dot; it sits at index n - rsuf - 1
      if (p.data.take (n - rsuf - 1)).all (· = '.') then p
      else ⟨p.data.take (n - rsuf - 1)⟩
    else p

/-- Python `" ".join(fragments)`. -/
def joinSpace (fragments : List String) : String := String.intercalate " " fragments

/-! ### The capture sampler (src/watcher/watcher.py)

`RecallWatcher.capture` is embedded as a pure function from a per-cycle
oracle environment and the sampler state to the new state plus the list of
filesystem actions the cycle performed on the inbox. -/

/-- The config keys the watcher reads (config.yaml). -/
structure WatcherConfig where
  window_blacklist : List String
  similarity_threshold : Nat
deriving Repr

/-- A perceptual hash (imagehash.phash): a fixed-size bit vector. -/
abbrev PHash := List Bool

/-- The `imagehash` hash difference: Hamming distance, the count of differing
bits. -/
def phashDiff (a b : PHash) : Nat :=
  (List.zipWith (fun x y => x != y) a b).count true

/-- Oracle inputs of one capture cycle: the externals the cycle consults, in
source order.  `windowTitle` is the result of `get_active_window_title`
(already "Unknown" if the window query failed); `grimOk` is whether the
screen-capture subprocess succeeded; `frameHash` is the phash of the captured
frame; `nowStr` is `datetime.now().strftime("%Y-%m-%d_%H-%M-%S")`. -/
structure CaptureEnv where
  pauseFileExists : Bool
  pauseFileContent : String
  windowTitle : String
  grimOk : Bool
  frameHash : PHash
  nowStr : String

/-- The watcher's only in-memory state: `self.last_hash`. -/
structure WatcherState where
  last_hash : Option PHash
deriving DecidableEq

/-- Filesystem actions a capture cycle performs in the inbox directory. -/
inductive FsAction where
  | writeTemp (name : String)
  | renameTempToFinal (tempName finalName : String)
deriving DecidableEq, Repr

/-- Model of `RecallWatcher.is_paused`: presence of the pause marker file; its content
(`pauseFileContent`) is never consulted. -/
def is_paused (env : CaptureEnv) : Bool := env.pauseFileExists

/-- Model of `RecallWatcher.is_safe_to_capture`: false iff some blocklist entry is a
case-insensitive substring of the active window title. -/
def is_safe_to_capture (cfg : WatcherConfig) (title : String) : Bool :=
  !(cfg.window_blacklist.any fun w => strContainsSub (lowerStr title) (lowerStr w))

/-- Model of `RecallWatcher.capture`: one cycle.  Mirrors the source control flow:
pause gate; privacy check (before any capture); `grim` writes the reserved
temp file; phash; dedup suppression below `similarity_threshold`; otherwise
atomic rename to the timestamp-derived final name and fingerprint update.
Any exception (modelled: `grim` failure) abandons the cycle with the state
unchanged. -/
def capture (cfg : WatcherConfig) (env : CaptureEnv) (s : WatcherState) :
    WatcherState × List FsAction :=
  if is_paused env then (s, [])
  else if !(is_safe_to_capture cfg env.windowTitle) then (s, [])
  else if !env.grimOk then (s, [.writeTemp "temp_capture.png"])
  else
    let current_hash := env.frameHash
    match s.last_hash with
    | some prev =>
      if phashDiff current_hash prev < cfg.similarity_threshold then
        (s, [.writeTemp "temp_capture.png"])
      else
        ({ last_hash := some current_hash },
         [.writeTemp "temp_capture.png",
          .renameTempToFinal "temp_capture.png" (env.nowStr ++ ".png")])
    | none =>
      ({ last_hash := some current_hash },
       [.writeTemp "temp_capture.png",
        .renameTempToFinal "temp_capture.png" (env.nowStr ++ ".png")])

/-- Model of `RecallWatcher.run`: the capture loop over a sequence of cycles,
accumulating the filesystem actions. -/
def runCycles (cfg : WatcherConfig) : List CaptureEnv → WatcherState →
    WatcherState × List FsAction
  | [], s => (s, [])
  | e :: es, s =>
    let step := capture cfg e s
    let rest := runCycles cfg es step.1
    (rest.1, step.2 ++ rest.2)

/-! ### Claims about the capture sampler -/

/-- C2.  For every capture cycle in which the active window title contains a
configured blocklist entry as a case-insensitive substring, no file is
created in the inbox (no temp file is written: the action list is empty) and
the in-memory perceptual fingerprint is left unchanged. -/
theorem privacy_filter_blocks (cfg : WatcherConfig) (env : CaptureEnv)
    (s : WatcherState) (w : String) (hw : w ∈ cfg.window_blacklist)
    (hc : strContainsSub (lowerStr env.windowTitle) (lowerStr w) = true) :
    capture cfg env s = (s, []) := by
  have hsafe : is_safe_to_capture cfg env.windowTitle = false := by
    simp only [is_safe_to_capture, Bool.not_eq_false', List.any_eq_true]
    exact ⟨w, hw, hc⟩
  unfold capture
  by_cases hp : is_paused env
  · simp [hp]
  · simp [hp, hsafe]

theorem privacy_filter_blocks_witness :
    capture ⟨["bank"], 5⟩ ⟨false, "", "My Bank - Login", true, [true], "2024-01-01_10-00-00"⟩
        ⟨some [false]⟩ = (⟨some [false]⟩, []) :=
  privacy_filter_blocks _ _ _ "bank" (by decide) (by decide)

/-- C3.  With a prior fingerprint present (and the cycle not otherwise
skipped), a frame at distance strictly below `similarity_threshold` is never
renamed to a final name and the stored fingerprint is unchanged, while a
frame at distance at or above the threshold is renamed to the
timestamp-derived final name and the fingerprint is updated to the new
hash. -/
theorem dedup_threshold_gate (cfg : WatcherConfig) (env : CaptureEnv)
    (s : WatcherState) (prev : PHash)
    (hp : env.pauseFileExists = false)
    (hsafe : is_safe_to_capture cfg env.windowTitle = true)
    (hg : env.grimOk = true)
    (hprev : s.last_hash = some prev) :
    (phashDiff env.frameHash prev < cfg.similarity_threshold →
      capture cfg env s = (s, [.writeTemp "temp_capture.png"])) ∧
    (cfg.similarity_threshold ≤ phashDiff env.frameHash prev →
      capture cfg env s =
        ({ last_hash := some env.frameHash },
         [.writeTemp "temp_capture.png",
          .renameTempToFinal "temp_capture.png" (env.nowStr ++ ".png")])) := by
  constructor <;> intro hd
  · simp [capture, is_paused, hp, hsafe, hg, hprev, hd]
  · simp [capture, is_paused, hp, hsafe, hg, hprev, Nat.not_lt.mpr hd]

theorem dedup_threshold_gate_witness :
    capture ⟨[], 5⟩ ⟨false, "", "t", true, [true, false], "2024-01-01_10-00-00"⟩
        ⟨some [true, true]⟩ = (⟨some [true, true]⟩, [.writeTemp "temp_capture.png"]) ∧
    capture ⟨[], 1⟩ ⟨false, "", "t", true, [true, false], "2024-01-01_10-00-00"⟩
        ⟨some [true, true]⟩ =
      (⟨some [true, false]⟩,
       [.writeTemp "temp_capture.png",
        .renameTempToFinal "temp_capture.png" "2024-01-01_10-00-00.png"]) :=
  ⟨(dedup_threshold_gate ⟨[], 5⟩ _ _ [true, true] rfl (by decide) rfl rfl).1 (by decide),
   (dedup_threshold_gate ⟨[], 1⟩ _ _ [true, true] rfl (by decide) rfl rfl).2 (by decide)⟩

/-- C4.  While the pause marker file exists every cycle creates no inbox file
and leaves the state untouched, for any number of cycles; the marker's
content is never consulted (capture is invariant under changing it); and once
the marker is absent the next cycle proceeds into the capture path (a temp
file is written whenever the cycle is not otherwise blocked). -/
theorem pause_gate_correct (cfg : WatcherConfig) (s : WatcherState)
    (envs : List CaptureEnv) (env : CaptureEnv) (c : String)
    (hall : ∀ e ∈ envs, e.pauseFileExists = true) :
    runCycles cfg envs s = (s, []) ∧
    capture cfg { env with pauseFileContent := c } s = capture cfg env s ∧
    (env.pauseFileExists = false → is_safe_to_capture cfg env.windowTitle = true →
      env.grimOk = true → FsAction.writeTemp "temp_capture.png" ∈ (capture cfg env s).2) := by
  refine ⟨?_, ?_, ?_⟩
  · induction envs generalizing s with
    | nil => rfl
    | cons e es ih =>
      have hc : capture cfg e s = (s, []) := by
        simp [capture, is_paused, hall e (List.mem_cons_self e es)]
      simp [runCycles, hc]
      exact ih s (fun x hx => hall x (List.mem_cons_of_mem e hx))
  · cases env; rfl
  · intro hp hsafe hg
    simp only [capture, is_paused, hp, hsafe, hg, Bool.not_true, Bool.false_eq_true,
      if_false, Bool.not_eq_true']
    cases hhash : s.last_hash with
    | none => simp
    | some prev =>
      by_cases hd : phashDiff env.frameHash prev < cfg.similarity_threshold <;> simp [hd]

theorem pause_gate_correct_witness :
    runCycles ⟨[], 5⟩ [⟨true, "x", "t", true, [], "a"⟩, ⟨true, "", "t", true, [], "b"⟩]
        ⟨none⟩ = (⟨none⟩, []) ∧
    capture ⟨[], 5⟩ ⟨false, "c1", "t", true, [true], "a"⟩ ⟨none⟩ =
      capture ⟨[], 5⟩ ⟨false, "c2", "t", true, [true], "a"⟩ ⟨none⟩ ∧
    FsAction.writeTemp "temp_capture.png" ∈
      (capture ⟨[], 5⟩ ⟨false, "c2", "t", true, [true], "a"⟩ ⟨none⟩).2 := by
  have h := pause_gate_correct ⟨[], 5⟩ ⟨none⟩
    [⟨true, "x", "t", true, [], "a"⟩, ⟨true, "", "t", true, [], "b"⟩]
    ⟨false, "c2", "t", true, [true], "a"⟩ "c1" (by decide)
  exact ⟨h.1, h.2.1, h.2.2 rfl (by decide) rfl⟩

/-- C10.  When no prior fingerprint exists, a cycle that reaches the capture
path always publishes the frame under the timestamp-derived final name,
whatever its hash, and initializes the in-memory fingerprint to that frame's
hash. -/
theorem first_capture_published (cfg : WatcherConfig) (env : CaptureEnv)
    (s : WatcherState)
    (hp : env.pauseFileExists = false)
    (hsafe : is_safe_to_capture cfg env.windowTitle = true)
    (hg : env.grimOk = true)
    (hnone : s.last_hash = none) :
    capture cfg env s =
      ({ last_hash := some env.frameHash },
       [.writeTemp "temp_capture.png",
        .renameTempToFinal "temp_capture.png" (env.nowStr ++ ".png")]) := by
  simp [capture, is_paused, hp, hsafe, hg, hnone]

theorem first_capture_published_witness :
    capture ⟨["bank"], 5⟩ ⟨false, "", "editor", true, [true, true], "2024-01-01_10-00-01"⟩
        ⟨none⟩ =
      (⟨some [true, true]⟩,
       [.writeTemp "temp_capture.png",
        .renameTempToFinal "temp_capture.png" "2024-01-01_10-00-01.png"]) :=
  first_capture_published _ _ _ rfl (by decide) rfl rfl

/-! ### Timestamps (datetime.strptime with format "%Y-%m-%d_%H-%M-%S")

The parser mirrors CPython `_strptime`: `%Y` is exactly four digits; the
two-digit fields accept one or two digits with the ranges the format regex
encodes (month 1–12, day 1–31, hour 0–23, minute 0–59, second 0–61); the
whole string must be consumed; and the final `datetime(...)` construction
rejects year 0, days beyond the month's length, and leap seconds. -/

/-- A naive `datetime.datetime` value. -/
structure Datetime where
  year : Nat
  month : Nat
  day : Nat
  hour : Nat
  minute : Nat
  second : Nat
deriving DecidableEq, Repr

/-- Numeric value of a digit character. -/
def digitVal (c : Char) : Nat := c.toNat - 48

/-- Field `%Y`: exactly four digits. -/
def parse4Digits : List Char → Option (Nat × List Char)
  | a :: b :: c :: d :: rest =>
    if a.isDigit && b.isDigit && c.isDigit && d.isDigit then
      some (digitVal a * 1000 + digitVal b * 100 + digitVal c * 10 + digitVal d, rest)
    else none
  | _ => none

/-- A one-or-two-digit field: two digits when their value lies in
`[lo₂, hi₂]`, else one digit with value in `[lo₁, hi₁]` (the ordered
alternation of the strptime regex; as in the regex, a two-digit read out of
range falls back to the one-digit read). -/
def parseField (lo₂ hi₂ lo₁ hi₁ : Nat) : List Char → Option (Nat × List Char)
  | [] => none
  | a :: rest =>
    if !a.isDigit then none
    else
      match rest with
      | b :: rest₂ =>
        if b.isDigit then
          let v := digitVal a * 10 + digitVal b
          if lo₂ ≤ v && v ≤ hi₂ then some (v, rest₂)
          else if lo₁ ≤ digitVal a && digitVal a ≤ hi₁ then some (digitVal a, b :: rest₂)
          else none
        else if lo₁ ≤ digitVal a && digitVal a ≤ hi₁ then some (digitVal a, rest)
        else none
      | [] =>
        if lo₁ ≤ digitVal a && digitVal a ≤ hi₁ then some (digitVal a, []) else none

/-- A literal separator character. -/
def parseLit (c : Char) : List Char → Option (List Char)
  | x :: rest => if x = c then some rest else none
  | [] => none

/-- Gregorian leap year (as `calendar.isleap`). -/
def isLeapYear (y : Nat) : Bool := (y % 4 == 0 && y % 100 != 0) || y % 400 == 0

/-- Days in a month, used by the `datetime` constructor's validation. -/
def daysInMonth (y m : Nat) : Nat :=
  if m = 2 then (if isLeapYear y then 29 else 28)
  else if m = 4 || m = 6 || m = 9 || m = 11 then 30
  else 31

/-- Model of `datetime.strptime(s, "%Y-%m-%d_%H-%M-%S")`, returning `none` where the
Python call raises `ValueError`. -/
def strptimeYmdHMS (s : String) : Option Datetime :=
  match parse4Digits s.data with
  | none => none
  | some (y, r₁) =>
  match parseLit '-' r₁ with
  | none => none
  | some r₂ =>
  match parseField 1 12 1 9 r₂ with
  | none => none
  | some (mo, r₃) =>
  match parseLit '-' r₃ with
  | none => none
  | some r₄ =>
  match parseField 1 31 1 9 r₄ with
  | none => none
  | some (d, r₅) =>
  match parseLit '_' r₅ with
  | none => none
  | some r₆ =>
  match parseField 0 23 0 9 r₆ with
  | none => none
  | some (h, r₇) =>
  match parseLit '-' r₇ with
  | none => none
  | some r₈ =>
  match parseField 0 59 0 9 r₈ with
  | none => none
  | some (mi, r₉) =>
  match parseLit '-' r₉ with
  | none => none
  | some r₁₀ =>
  match parseField 0 61 0 9 r₁₀ with
  | none => none
  | some (sec, r₁₁) =>
    -- unconverted data remains ⇒ ValueError; then datetime() validation
    if r₁₁ = [] ∧ 1 ≤ y ∧ d ≤ daysInMonth y mo ∧ sec ≤ 59 then
      some ⟨y, mo, d, h, mi, sec⟩
    else none

/-! ### The ingestion pipeline (src/backend/worker.py, src/backend/database.py) -/

/-- A row of the `screenshots` table (src/backend/database.py): store-assigned
`id`, `filepath` carrying a uniqueness constraint, `timestamp`, `app_name`,
`ocr_text`. -/
structure ScreenshotRecord where
  id : Nat
  filepath : String
  timestamp : Datetime
  app_name : String
  ocr_text : String
deriving DecidableEq, Repr

/-- The relational store: the rows plus the auto-increment id the next
successful insert receives. -/
structure RelationalStore where
  nextId : Nat
  rows : List ScreenshotRecord
deriving DecidableEq, Repr

/-- A point of the `screenshots` vector collection: explicit id, embedding
vector, and the denormalized payload `{text, path}`. -/
structure VectorPoint where
  id : Nat
  vector : List Int
  payloadText : String
  payloadPath : String
deriving DecidableEq, Repr

/-- The worker-visible world: inbox and archive directory listings, the
relational store, the vector collection. -/
structure WorkerState where
  inbox : List String
  archive : List String
  db : RelationalStore
  vectors : List VectorPoint
deriving DecidableEq, Repr

/-- Oracle outcomes of the external calls one `process_image` run makes:
OCR fragments (or an exception, carried as its `str(e)`), the embedding
vector (or an exception), `datetime.now()`, and the outcomes of the vector
upsert and of the archive rename. -/
structure ProcEnv where
  ocrResult : Except String (List String)
  embedResult : Except String (List Int)
  now : Datetime
  upsertResult : Except String Unit
  renameResult : Except String Unit

/-- Observable per-file events, in the order `process_image` performs them. -/
inductive WEvent where
  | insertCommitted (id : Nat) (filepath : String)
  | vectorUpserted (id : Nat) (text path : String) (vector : List Int)
  | renamed (name : String)
  | removeAttempted (name : String)
deriving DecidableEq, Repr

/-- Python `os.path.join(dir, name)` for a relative `name`. -/
def pathJoin (dir name : String) : String := dir ++ "/" ++ name

/-- The `filepath` column of every row. -/
def dbFilepaths (db : RelationalStore) : List String := db.rows.map (·.filepath)

/-- The worker's duplicate test on a caught exception:
`"UniqueViolation" in str(e) or "IntegrityError" in str(e)`. -/
def isDuplicateError (e : String) : Bool :=
  strContainsSub e "UniqueViolation" || strContainsSub e "IntegrityError"

/-- The `str(e)` of a commit that hits the uniqueness constraint on
`filepath` (psycopg2 wraps it as `UniqueViolation`). -/
def uniqueViolationMsg : String :=
  "(psycopg2.errors.UniqueViolation) duplicate key value violates unique constraint"

/-- The `except` block of `process_image`: on a duplicate-key message delete
the inbox copy (`os.remove`, itself wrapped so its failure is swallowed —
removing an absent file is a no-op here), otherwise leave the file for the
next poll. -/
def handleFailure (e : String) (filename : String) (s : WorkerState) :
    WorkerState × List WEvent :=
  if isDuplicateError e then
    ({ s with inbox := s.inbox.erase filename }, [.removeAttempted filename])
  else (s, [])

/-- Qdrant `upsert` by explicit id: replace the point with that id, or append. -/
def upsertPoint (ps : List VectorPoint) (p : VectorPoint) : List VectorPoint :=
  if ps.any (fun q => q.id == p.id) then ps.map (fun q => if q.id == p.id then p else q)
  else ps ++ [p]

/-- Model of `RecallWorker.process_image`, in source order: existence safety check;
OCR and `" ".join` of the fragments; embedding; timestamp from the filename
with `datetime.now()` fallback; relational insert with `filepath` set to the
archive-destination path (failing on a duplicate); vector upsert keyed by the
assigned id with payload `{text, path: filename}`; rename from inbox to
archive.  Any exception lands in `handleFailure`. -/
def process_image (archiveDir : String) (env : ProcEnv) (filename : String)
    (s : WorkerState) : WorkerState × List WEvent :=
  if filename ∉ s.inbox then (s, [])
  else
    match env.ocrResult with
    | .error e => handleFailure e filename s
    | .ok fragments =>
      let full_text := joinSpace fragments
      match env.embedResult with
      | .error e => handleFailure e filename s
      | .ok vector =>
        let timestamp := (strptimeYmdHMS (splitextBase filename)).getD env.now
        let archivePath := pathJoin archiveDir filename
        if archivePath ∈ dbFilepaths s.db then
          handleFailure uniqueViolationMsg filename s
        else
          let newId := s.db.nextId
          let s₁ := { s with db := ⟨newId + 1,
            s.db.rows ++ [⟨newId, archivePath, timestamp, "Unknown", full_text⟩]⟩ }
          match env.upsertResult with
          | .error e =>
            let h := handleFailure e filename s₁
            (h.1, .insertCommitted newId archivePath :: h.2)
          | .ok _ =>
            let s₂ := { s₁ with
              vectors := upsertPoint s₁.vectors ⟨newId, vector, full_text, filename⟩ }
            match env.renameResult with
            | .error e =>
              let h := handleFailure e filename s₂
              (h.1, .insertCommitted newId archivePath ::
                    .vectorUpserted newId full_text filename vector :: h.2)
            | .ok _ =>
              ({ s₂ with inbox := s₂.inbox.erase filename,
                         archive := s₂.archive ++ [filename] },
               [.insertCommitted newId archivePath,
                .vectorUpserted newId full_text filename vector,
                .renamed filename])

/-- The extension filter of the drain loop:
`f.lower().endswith(('.png', '.jpg', '.jpeg'))`. -/
def acceptedExt (f : String) : Bool :=
  strEndsWith (lowerStr f) ".png" || strEndsWith (lowerStr f) ".jpg" ||
    strEndsWith (lowerStr f) ".jpeg"

/-- The drain loop's listing: `sorted(...)` of the extension-filtered inbox
(Python's stable sort by code-point order, modelled by insertion sort under
the same order). -/
def listFiles (inbox : List String) : List String :=
  List.insertionSort strLeP (inbox.filter acceptedExt)

/-- The in-loop skip: `file.startswith("temp_") or file == "temp_capture.jpeg"`. -/
def isTempName (f : String) : Bool :=
  strStartsWith f "temp_" || f == "temp_capture.jpeg"

/-- The body of one drain iteration over an already-taken listing, pairing
each processed filename with the events of its `process_image` run. -/
def drainFiles (archiveDir : String) (envOf : String → ProcEnv) :
    List String → WorkerState → WorkerState × List (String × List WEvent)
  | [], s => (s, [])
  | f :: fs, s =>
    if isTempName f then drainFiles archiveDir envOf fs s
    else
      let step := process_image archiveDir (envOf f) f s
      let rest := drainFiles archiveDir envOf fs step.1
      (rest.1, (f, step.2) :: rest.2)

/-- One iteration of `RecallWorker.run`: list, filter, sort, then process
each candidate. -/
def drainOnce (archiveDir : String) (envOf : String → ProcEnv) (s : WorkerState) :
    WorkerState × List (String × List WEvent) :=
  drainFiles archiveDir envOf (listFiles s.inbox) s

/-! ### Claims about the ingestion pipeline -/

/-- Scan of an event trace validating write order: a `vectorUpserted` must be
preceded by an `insertCommitted` carrying the same id, and a `renamed` must
be preceded by both an insert and an upsert.  The two accumulators carry the
id of the latest insert and upsert seen so far. -/
def orderOk : Option Nat → Option Nat → List WEvent → Bool
  | _, _, [] => true
  | _, ups, .insertCommitted id _ :: rest => orderOk (some id) ups rest
  | ins, _, .vectorUpserted id _ _ _ :: rest => (ins == some id) && orderOk ins (some id) rest
  | ins, ups, .renamed _ :: rest => ins.isSome && ups.isSome && orderOk ins ups rest
  | ins, ups, .removeAttempted _ :: rest => orderOk ins ups rest

theorem orderOk_handleFailure (e filename : String) (s : WorkerState)
    (ins ups : Option Nat) : orderOk ins ups (handleFailure e filename s).2 = true := by
  unfold handleFailure
  split <;> simp [orderOk]

/-- C5.  In every execution of `process_image`, a vector entry is never
written before the corresponding relational record has been committed (and it
carries the id the insert assigned), and the inbox→archive rename happens
only after both the insert and the upsert: the event trace always passes
`orderOk`. -/
theorem vector_write_order (archiveDir : String) (env : ProcEnv)
    (filename : String) (s : WorkerState) :
    orderOk none none (process_image archiveDir env filename s).2 = true := by
  unfold process_image
  by_cases hin : filename ∈ s.inbox
  · obtain ⟨ocr, emb, now, ups, ren⟩ := env
    simp only [hin, not_true_eq_false, if_false]
    cases ocr with
    | error e => exact orderOk_handleFailure e filename s none none
    | ok frs =>
      cases emb with
      | error e => exact orderOk_handleFailure e filename s none none
      | ok v =>
        dsimp only
        by_cases hdup : pathJoin archiveDir filename ∈ dbFilepaths s.db
        · simp only [hdup, if_true]
          exact orderOk_handleFailure uniqueViolationMsg filename s none none
        · simp only [hdup, if_false]
          cases ups with
          | error e => simp [orderOk, orderOk_handleFailure]
          | ok u =>
            cases ren with
            | error e => simp [orderOk, orderOk_handleFailure]
            | ok r => simp [orderOk]
  · simp [hin, orderOk]

theorem handleFailure_db (e filename : String) (s : WorkerState) :
    (handleFailure e filename s).1.db = s.db := by
  unfold handleFailure
  split <;> rfl

/-- When OCR and embedding succeed and the archive path is fresh, the
relational store after `process_image` holds exactly the old rows plus the
newly inserted record, whatever the later upsert and rename outcomes. -/
theorem process_image_insert_db (archiveDir : String) (env : ProcEnv)
    (filename : String) (s : WorkerState) (frs : List String) (v : List Int)
    (hocr : env.ocrResult = .ok frs) (hemb : env.embedResult = .ok v)
    (hin : filename ∈ s.inbox)
    (hdup : pathJoin archiveDir filename ∉ dbFilepaths s.db) :
    (process_image archiveDir env filename s).1.db =
      ⟨s.db.nextId + 1,
       s.db.rows ++ [⟨s.db.nextId, pathJoin archiveDir filename,
         (strptimeYmdHMS (splitextBase filename)).getD env.now, "Unknown",
         joinSpace frs⟩]⟩ := by
  obtain ⟨ocr, emb, now, ups, ren⟩ := env
  cases hocr
  cases hemb
  simp only [process_image, hin, not_true_eq_false, if_false, hdup]
  cases ups with
  | error e => simp [handleFailure_db]
  | ok u =>
    cases ren with
    | error e => simp [handleFailure_db]
    | ok r => rfl

/-- C8.  For every processed filename (whose insert goes through), the
record's timestamp is the value parsed from the filename by the capture
naming convention `%Y-%m-%d_%H-%M-%S` after stripping the extension, and the
current time `now` is used exactly when that parse fails. -/
theorem timestamp_parse_fallback (archiveDir : String) (env : ProcEnv)
    (filename : String) (s : WorkerState) (frs : List String) (v : List Int)
    (hocr : env.ocrResult = .ok frs) (hemb : env.embedResult = .ok v)
    (hin : filename ∈ s.inbox)
    (hdup : pathJoin archiveDir filename ∉ dbFilepaths s.db) :
    ((process_image archiveDir env filename s).1.db.rows =
      s.db.rows ++ [⟨s.db.nextId, pathJoin archiveDir filename,
        (strptimeYmdHMS (splitextBase filename)).getD env.now, "Unknown",
        joinSpace frs⟩]) ∧
    (strptimeYmdHMS (splitextBase filename) = none →
      (process_image archiveDir env filename s).1.db.rows =
        s.db.rows ++ [⟨s.db.nextId, pathJoin archiveDir filename, env.now,
          "Unknown", joinSpace frs⟩]) ∧
    (∀ t, strptimeYmdHMS (splitextBase filename) = some t →
      (process_image archiveDir env filename s).1.db.rows =
        s.db.rows ++ [⟨s.db.nextId, pathJoin archiveDir filename, t,
          "Unknown", joinSpace frs⟩]) := by
  have h := process_image_insert_db archiveDir env filename s frs v hocr hemb hin hdup
  refine ⟨by rw [h], ?_, ?_⟩
  · intro hp
    rw [h, hp]
    rfl
  · intro t hp
    rw [h, hp]
    rfl

theorem timestamp_parse_fallback_witness :
    ((process_image "arch" ⟨.ok ["a"], .ok [7], ⟨2030, 6, 1, 0, 0, 0⟩, .ok (), .ok ()⟩
        "2024-01-01_10-00-00.png"
        ⟨["2024-01-01_10-00-00.png"], [], ⟨1, []⟩, []⟩).1.db.rows =
      [⟨1, pathJoin "arch" "2024-01-01_10-00-00.png", ⟨2024, 1, 1, 10, 0, 0⟩,
        "Unknown", "a"⟩]) ∧
    ((process_image "arch" ⟨.ok ["a"], .ok [7], ⟨2030, 6, 1, 0, 0, 0⟩, .ok (), .ok ()⟩
        "screenshot.png"
        ⟨["screenshot.png"], [], ⟨1, []⟩, []⟩).1.db.rows =
      [⟨1, pathJoin "arch" "screenshot.png", ⟨2030, 6, 1, 0, 0, 0⟩,
        "Unknown", "a"⟩]) := by
  constructor
  · have h := (timestamp_parse_fallback "arch"
      ⟨.ok ["a"], .ok [7], ⟨2030, 6, 1, 0, 0, 0⟩, .ok (), .ok ()⟩
      "2024-01-01_10-00-00.png" ⟨["2024-01-01_10-00-00.png"], [], ⟨1, []⟩, []⟩
      ["a"] [7] rfl rfl (by decide) (by decide)).2.2 ⟨2024, 1, 1, 10, 0, 0⟩ (by decide)
    simpa using h
  · have h := (timestamp_parse_fallback "arch"
      ⟨.ok ["a"], .ok [7], ⟨2030, 6, 1, 0, 0, 0⟩, .ok (), .ok ()⟩
      "screenshot.png" ⟨["screenshot.png"], [], ⟨1, []⟩, []⟩
      ["a"] [7] rfl rfl (by decide) (by decide)).2.1 (by decide)
    simpa using h

theorem handleFailure_dup (e filename : String) (s : WorkerState)
    (h : isDuplicateError e = true) :
    handleFailure e filename s =
      ({ s with inbox := s.inbox.erase filename }, [.removeAttempted filename]) := by
  simp [handleFailure, h]

theorem handleFailure_nondup (e filename : String) (s : WorkerState)
    (h : isDuplicateError e = false) :
    handleFailure e filename s = (s, []) := by
  simp [handleFailure, h]

/-- The exception (as its `str(e)`) a `process_image` run raises into its
`except` block, read off the same oracle outcomes in the same order: OCR,
embedding, the duplicate-key commit failure, upsert, rename. -/
def raisedError (archiveDir : String) (env : ProcEnv) (filename : String)
    (s : WorkerState) : Option String :=
  if filename ∉ s.inbox then none
  else
    match env.ocrResult with
    | .error e => some e
    | .ok _ =>
      match env.embedResult with
      | .error e => some e
      | .ok _ =>
        if pathJoin archiveDir filename ∈ dbFilepaths s.db then some uniqueViolationMsg
        else
          match env.upsertResult with
          | .error e => some e
          | .ok _ =>
            match env.renameResult with
            | .error e => some e
            | .ok _ => none

/-- C9.  A `process_image` run attempts to delete the inbox file exactly when
the raised exception's string contains `"UniqueViolation"` or
`"IntegrityError"`; on such an exception the file is removed from the inbox,
on any other exception the inbox is left unchanged, and a deletion on an
already-absent file is a swallowed no-op (the run still returns normally). -/
theorem exception_deletion_rule (archiveDir : String) (env : ProcEnv)
    (filename : String) (s : WorkerState) (hin : filename ∈ s.inbox) :
    (WEvent.removeAttempted filename ∈ (process_image archiveDir env filename s).2 ↔
      (∃ e, raisedError archiveDir env filename s = some e ∧ isDuplicateError e = true)) ∧
    (∀ e, raisedError archiveDir env filename s = some e → isDuplicateError e = true →
      (process_image archiveDir env filename s).1.inbox = s.inbox.erase filename) ∧
    (∀ e, raisedError archiveDir env filename s = some e → isDuplicateError e = false →
      (process_image archiveDir env filename s).1.inbox = s.inbox) ∧
    (∀ (e f : String) (s' : WorkerState), f ∉ s'.inbox → (handleFailure e f s').1 = s') := by
  have hswallow : ∀ (e f : String) (s' : WorkerState), f ∉ s'.inbox →
      (handleFailure e f s').1 = s' := by
    intro e f s' hf
    unfold handleFailure
    split
    · cases s'
      simp [List.erase_of_not_mem hf]
    · rfl
  obtain ⟨ocr, emb, now, ups, ren⟩ := env
  simp only [process_image, raisedError, hin, not_true_eq_false, if_false]
  cases ocr with
  | error e =>
    rcases hd : isDuplicateError e with _ | _
    · simp [handleFailure_nondup e filename s hd, hd] <;> exact hswallow
    · simp [handleFailure_dup e filename s hd, hd] <;> exact hswallow
  | ok frs =>
    cases emb with
    | error e =>
      rcases hd : isDuplicateError e with _ | _
      · simp [handleFailure_nondup e filename s hd, hd] <;> exact hswallow
      · simp [handleFailure_dup e filename s hd, hd] <;> exact hswallow
    | ok v =>
      dsimp only
      by_cases hdup : pathJoin archiveDir filename ∈ dbFilepaths s.db
      · have hd : isDuplicateError uniqueViolationMsg = true := by decide
        simp [hdup, handleFailure_dup uniqueViolationMsg filename s hd, hd] <;> exact hswallow
      · simp only [hdup, if_false]
        cases ups with
        | error e =>
          rcases hd : isDuplicateError e with _ | _
          · simp [handleFailure_nondup e filename _ hd, hd] <;> exact hswallow
          · simp [handleFailure_dup e filename _ hd, hd] <;> exact hswallow
        | ok u =>
          cases ren with
          | error e =>
            rcases hd : isDuplicateError e with _ | _
            · simp [handleFailure_nondup e filename _ hd, hd] <;> exact hswallow
            · simp [handleFailure_dup e filename _ hd, hd] <;> exact hswallow
          | ok r => simp <;> exact hswallow

theorem exception_deletion_rule_witness :
    (process_image "arch" ⟨.error "paddleocr failed", .ok [], ⟨2030, 1, 1, 0, 0, 0⟩,
        .ok (), .ok ()⟩ "f.png" ⟨["f.png"], [], ⟨1, []⟩, []⟩).1.inbox = ["f.png"] ∧
    (process_image "arch" ⟨.error "(sqlalchemy.exc.IntegrityError) boom", .ok [],
        ⟨2030, 1, 1, 0, 0, 0⟩, .ok (), .ok ()⟩ "f.png"
        ⟨["f.png"], [], ⟨1, []⟩, []⟩).1.inbox = [] := by
  constructor
  · have h := (exception_deletion_rule "arch"
      ⟨.error "paddleocr failed", .ok [], ⟨2030, 1, 1, 0, 0, 0⟩, .ok (), .ok ()⟩
      "f.png" ⟨["f.png"], [], ⟨1, []⟩, []⟩ (by decide)).2.2.1 "paddleocr failed"
      rfl (by decide)
    simpa using h
  · have h := (exception_deletion_rule "arch"
      ⟨.error "(sqlalchemy.exc.IntegrityError) boom", .ok [], ⟨2030, 1, 1, 0, 0, 0⟩,
        .ok (), .ok ()⟩
      "f.png" ⟨["f.png"], [], ⟨1, []⟩, []⟩ (by decide)).2.1
      "(sqlalchemy.exc.IntegrityError) boom" rfl (by decide)
    simpa using h

theorem handleFailure_preserves_db_vectors (e filename : String) (s : WorkerState) :
    (handleFailure e filename s).1.db = s.db ∧
    (handleFailure e filename s).1.vectors = s.vectors := by
  unfold handleFailure
  split <;> exact ⟨rfl, rfl⟩

/-- Every `process_image` run keeps the `filepath` column duplicate-free:
a record is only ever inserted under an archive path not yet present. -/
theorem process_image_preserves_nodup (archiveDir : String) (env : ProcEnv)
    (filename : String) (s : WorkerState)
    (hnd : (dbFilepaths s.db).Nodup) :
    (dbFilepaths (process_image archiveDir env filename s).1.db).Nodup := by
  unfold process_image
  by_cases hin : filename ∈ s.inbox
  · obtain ⟨ocr, emb, now, ups, ren⟩ := env
    simp only [hin, not_true_eq_false, if_false]
    cases ocr with
    | error e => rw [(handleFailure_preserves_db_vectors e filename s).1]; exact hnd
    | ok frs =>
      cases emb with
      | error e => rw [(handleFailure_preserves_db_vectors e filename s).1]; exact hnd
      | ok v =>
        dsimp only
        by_cases hdup : pathJoin archiveDir filename ∈ dbFilepaths s.db
        · simp only [hdup, if_true]
          rw [(handleFailure_preserves_db_vectors uniqueViolationMsg filename s).1]
          exact hnd
        · simp only [hdup, if_false]
          have hnew : (dbFilepaths ⟨s.db.nextId + 1,
              s.db.rows ++ [⟨s.db.nextId, pathJoin archiveDir filename,
                (strptimeYmdHMS (splitextBase filename)).getD now, "Unknown",
                joinSpace frs⟩]⟩).Nodup := by
            simp only [dbFilepaths, List.map_append, List.map_cons, List.map_nil]
            rw [List.nodup_append]
            refine ⟨hnd, List.nodup_singleton _, ?_⟩
            simp only [List.disjoint_singleton]
            exact hdup
          cases ups with
          | error e => rw [(handleFailure_preserves_db_vectors e filename _).1]; exact hnew
          | ok u =>
            cases ren with
            | error e => rw [(handleFailure_preserves_db_vectors e filename _).1]; exact hnew
            | ok r => exact hnew
  · simp only [hin, not_false_eq_true, if_true]
    exact hnd

theorem drainFiles_preserves_nodup (archiveDir : String) (envOf : String → ProcEnv) :
    ∀ (fs : List String) (s : WorkerState), (dbFilepaths s.db).Nodup →
      (dbFilepaths (drainFiles archiveDir envOf fs s).1.db).Nodup
  | [], _, hnd => hnd
  | f :: fs, s, hnd => by
    unfold drainFiles
    split
    · exact drainFiles_preserves_nodup archiveDir envOf fs s hnd
    · exact drainFiles_preserves_nodup archiveDir envOf fs _
        (process_image_preserves_nodup archiveDir (envOf f) f s hnd)

/-- C1.  On a uniqueness violation of `filepath`, `process_image` deletes the
inbox copy and changes nothing else — in particular it writes no vector entry
— and consequently draining the same inbox twice (with any oracle outcomes)
never yields two records with the same archive filepath. -/
theorem duplicate_drain_idempotent (archiveDir : String)
    (envOf₁ envOf₂ : String → ProcEnv) (env : ProcEnv) (filename : String)
    (frs : List String) (v : List Int) (s : WorkerState)
    (hnd : (dbFilepaths s.db).Nodup) :
    (env.ocrResult = .ok frs → env.embedResult = .ok v → filename ∈ s.inbox →
      pathJoin archiveDir filename ∈ dbFilepaths s.db →
      process_image archiveDir env filename s =
        ({ s with inbox := s.inbox.erase filename }, [.removeAttempted filename])) ∧
    (dbFilepaths (drainOnce archiveDir envOf₂
      (drainOnce archiveDir envOf₁ s).1).1.db).Nodup := by
  constructor
  · intro hocr hemb hin hdup
    obtain ⟨ocr, emb, now, ups, ren⟩ := env
    cases hocr
    cases hemb
    simp only [process_image, hin, not_true_eq_false, if_false, hdup, if_true]
    exact handleFailure_dup uniqueViolationMsg filename s (by decide)
  · exact drainFiles_preserves_nodup archiveDir envOf₂ _ _
      (drainFiles_preserves_nodup archiveDir envOf₁ _ _ hnd)

theorem duplicate_drain_idempotent_witness :
    process_image "arch"
        ⟨.ok ["cpu"], .ok [3], ⟨2030, 1, 1, 0, 0, 0⟩, .ok (), .ok ()⟩ "f.png"
        ⟨["f.png"], [],
         ⟨2, [⟨1, "arch/f.png", ⟨2024, 1, 1, 0, 0, 0⟩, "Unknown", "old"⟩]⟩, []⟩ =
      (⟨[], [],
        ⟨2, [⟨1, "arch/f.png", ⟨2024, 1, 1, 0, 0, 0⟩, "Unknown", "old"⟩]⟩, []⟩,
       [.removeAttempted "f.png"]) ∧
    (dbFilepaths (drainOnce "arch"
      (fun _ => ⟨.ok ["cpu"], .ok [3], ⟨2030, 1, 1, 0, 0, 0⟩, .ok (), .ok ()⟩)
      (drainOnce "arch"
        (fun _ => ⟨.ok ["cpu"], .ok [3], ⟨2030, 1, 1, 0, 0, 0⟩, .ok (), .ok ()⟩)
        ⟨["f.png"], [],
         ⟨2, [⟨1, "arch/f.png", ⟨2024, 1, 1, 0, 0, 0⟩, "Unknown", "old"⟩]⟩, []⟩).1).1.db).Nodup := by
  have h := duplicate_drain_idempotent "arch"
    (fun _ => ⟨.ok ["cpu"], .ok [3], ⟨2030, 1, 1, 0, 0, 0⟩, .ok (), .ok ()⟩)
    (fun _ => ⟨.ok ["cpu"], .ok [3], ⟨2030, 1, 1, 0, 0, 0⟩, .ok (), .ok ()⟩)
    ⟨.ok ["cpu"], .ok [3], ⟨2030, 1, 1, 0, 0, 0⟩, .ok (), .ok ()⟩ "f.png"
    ["cpu"] [3]
    ⟨["f.png"], [],
     ⟨2, [⟨1, "arch/f.png", ⟨2024, 1, 1, 0, 0, 0⟩, "Unknown", "old"⟩]⟩, []⟩
    (by decide)
  refine ⟨?_, h.2⟩
  have h1 := h.1 rfl rfl (by decide) (by decide)
  simpa using h1

theorem drainFiles_calls (archiveDir : String) (envOf : String → ProcEnv) :
    ∀ (fs : List String) (s : WorkerState),
      (drainFiles archiveDir envOf fs s).2.map Prod.fst =
        fs.filter (fun f => !isTempName f)
  | [], _ => rfl
  | f :: fs, s => by
    unfold drainFiles
    rcases ht : isTempName f with _ | _
    · simp [ht, drainFiles_calls archiveDir envOf fs]
    · simp [ht, drainFiles_calls archiveDir envOf fs]

theorem isTempName_eq_false_iff (f : String) :
    isTempName f = false ↔ strStartsWith f "temp_" = false := by
  by_cases hf : f = "temp_capture.jpeg"
  · subst hf
    decide
  · simp [isTempName, hf]

/-- C7.  Each drain iteration passes to `process_image` exactly the inbox
filenames with an accepted image extension (case-insensitively `.png`,
`.jpg`, `.jpeg`) that do not carry the reserved temporary prefix, in
lexicographic order. -/
theorem drain_selection (archiveDir : String) (envOf : String → ProcEnv)
    (s : WorkerState) :
    ((drainOnce archiveDir envOf s).2.map Prod.fst =
      (listFiles s.inbox).filter (fun f => !isTempName f)) ∧
    List.Sorted strLeP ((drainOnce archiveDir envOf s).2.map Prod.fst) ∧
    (∀ f, f ∈ (drainOnce archiveDir envOf s).2.map Prod.fst ↔
      (f ∈ s.inbox ∧ acceptedExt f = true ∧ strStartsWith f "temp_" = false)) := by
  have hcalls : (drainOnce archiveDir envOf s).2.map Prod.fst =
      (listFiles s.inbox).filter (fun f => !isTempName f) :=
    drainFiles_calls archiveDir envOf (listFiles s.inbox) s
  refine ⟨hcalls, ?_, ?_⟩
  · rw [hcalls]
    exact (List.sorted_insertionSort strLeP _).filter _
  · intro f
    rw [hcalls]
    simp only [listFiles, List.mem_filter]
    rw [List.Perm.mem_iff (List.perm_insertionSort strLeP _)]
    simp only [List.mem_filter, Bool.not_eq_true']
    constructor
    · rintro ⟨⟨hf, hext⟩, htemp⟩
      exact ⟨hf, hext, (isTempName_eq_false_iff f).1 htemp⟩
    · rintro ⟨hf, hext, hst⟩
      exact ⟨⟨hf, hext⟩, (isTempName_eq_false_iff f).2 hst⟩

/-- The 512-dimension embedding vector of the end-to-end scenario
(`VECTOR_SIZE = 512` in src/backend/database.py). -/
def v512 : List Int := List.replicate 512 0

/-- C6.  End-to-end: with `2024-01-01_10-00-00.png` in the inbox, OCR
fragments `["cpu", "usage"]` and a 512-dimension embedding, one drain inserts
a record with `ocr_text = "cpu usage"`, timestamp 2024-01-01T10:00:00 and the
archive-destination filepath, upserts the vector point with the assigned id
and payload `{text: "cpu usage", path: "2024-01-01_10-00-00.png"}`, and moves
the file to the archive, leaving the inbox empty. -/
theorem end_to_end_scenario (archiveDir : String) :
    drainOnce archiveDir
      (fun _ => ⟨.ok ["cpu", "usage"], .ok v512, ⟨2030, 1, 1, 0, 0, 0⟩, .ok (), .ok ()⟩)
      ⟨["2024-01-01_10-00-00.png"], [], ⟨1, []⟩, []⟩ =
    (⟨[], ["2024-01-01_10-00-00.png"],
      ⟨2, [⟨1, pathJoin archiveDir "2024-01-01_10-00-00.png", ⟨2024, 1, 1, 10, 0, 0⟩,
        "Unknown", "cpu usage"⟩]⟩,
      [⟨1, v512, "cpu usage", "2024-01-01_10-00-00.png"⟩]⟩,
     [("2024-01-01_10-00-00.png",
       [.insertCommitted 1 (pathJoin archiveDir "2024-01-01_10-00-00.png"),
        .vectorUpserted 1 "cpu usage" "2024-01-01_10-00-00.png" v512,
        .renamed "2024-01-01_10-00-00.png"])]) ∧
    v512.length = 512 := by
  refine ⟨rfl, ?_⟩
  show (List.replicate 512 (0 : Int)).length = 512
  exact List.length_replicate 512 0
